import Mathlib

/-!
# Chronicle-Ops core: shallow embedding and verification

A shallow embedding of the Chronicle-Ops simulation core, translated from
`src/backend/simulation/state.py`, `src/backend/simulation/engine.py`,
`src/backend/simulation/timelock.py`, `src/backend/audit/ledger.py` and
`src/backend/policy/engine.py`, together with theorems settling the stated
properties of those modules.

Modelling conventions:
* Wall-clock datetimes are whole days, embedded as `Int` (`timedelta(days=d)`
  is `+ d`, `datetime.fromisoformat` on timeline input is the identity on the
  already-parsed day count).
* Python floats are embedded as `ℚ` (all arithmetic the claims touch is exact).
* Python dicts used as string-keyed mappings are association lists with a
  replace-or-append update, matching dict assignment; key order never matters
  to the properties proved here because the source canonicalizes with
  `sort_keys=True` wherever contents are compared or signed.
* `hashlib.sha256` over the canonical JSON of a state is collision-free for
  every value the model can produce, so `hash` is embedded as the canonical
  content itself: two model states have equal hashes iff the source states
  have byte-identical digests.
* RSA-PSS signatures are embedded symbolically: a signature is the signing
  key together with the exact signed content, which preserves precisely the
  properties the source relies on (determinism given key and message, and
  verification failing on any other message).  Fresh key-pair generation
  (`rsa.generate_private_key`, `Fernet.generate_key`) consumes entropy that
  is independent of the simulation seed; that entropy is an explicit `Nat`
  parameter of construction.
* `datetime.utcnow()` is an explicit wall-clock argument where the source
  consults it and the value is observable (ledger entries).  The
  `StateTransition.timestamp` wall stamp is omitted: no engine code path and
  no claim reads it.
-/

namespace ChronicleOps

/-- Whole days since the timeline epoch; the embedding of `datetime`. -/
abbrev Time := Int

/-! ## String-keyed mappings (Python dicts) -/

/-- `m.get(k)` on a string-keyed dict. -/
def alistGet {α : Type} (m : List (String × α)) (k : String) : Option α :=
  (m.find? (fun p => p.1 == k)).map (fun p => p.2)

/-- `m[k] = v` on a string-keyed dict: replace the existing binding or append. -/
def alistSet {α : Type} (m : List (String × α)) (k : String) (v : α) :
    List (String × α) :=
  if m.any (fun p => p.1 == k) then
    m.map (fun p => if p.1 == k then (k, v) else p)
  else
    m ++ [(k, v)]

/-- `for k, v in kvs.items(): m[k] = v` — overlay a dict onto another. -/
def alistOverlay {α : Type} (m kvs : List (String × α)) : List (String × α) :=
  kvs.foldl (fun acc p => alistSet acc p.1 p.2) m

/-- `sum(m.values())`. -/
def alistSum (m : List (String × ℚ)) : ℚ :=
  (m.map (fun p => p.2)).sum

/-! ## CompanyState (`src/backend/simulation/state.py:8-110`) -/

/-- Immutable snapshot of company state at a point in time
(`CompanyState`, `state.py:8`).  `metadata` is a ℚ-valued mapping: the only
key the core ever writes or reads is `growth_rate`. -/
structure CompanyState where
  timestamp : Time
  version : Nat
  cash : ℚ
  revenue_monthly : ℚ
  costs_monthly : ℚ
  margin : ℚ
  headcount : Int
  capacity : List (String × ℚ)
  utilization : List (String × ℚ)
  demand : List (String × ℚ)
  pricing : List (String × ℚ)
  cac : List (String × ℚ)
  churn_rate : ℚ
  inventory : List (String × ℚ)
  backlog : List (String × ℚ)
  lead_times : List (String × Int)
  service_level : ℚ
  risk_flags : List (String × ℚ)
  compliance_score : ℚ
  metadata : List (String × ℚ)
  deriving DecidableEq, Repr

/-- `CompanyState.clone` (`state.py:44-69`): new snapshot with `version += 1`;
callers override further fields with record-update syntax, matching the
`**updates` keyword overrides. -/
def CompanyState.clone (s : CompanyState) : CompanyState :=
  { s with version := s.version + 1 }

/-- `CompanyState.hash` (`state.py:95-98`): SHA-256 of the canonical
(sorted-keys) JSON.  Embedded as the canonical content itself (see the
header note): equal model values iff byte-identical source digests. -/
def CompanyState.hash (s : CompanyState) : CompanyState := s

/-! ## Actions and transitions -/

/-- The action's `type` discriminator together with its `params`
(the five types dispatched in `engine.py:126-160`).  Parameters the source
reads with `.get(..., default)` are `Option`s; the default is applied at the
read site exactly as in the source. -/
inductive ActionParams where
  | adjust_hiring (delta : Int) (cost_per_head : Option ℚ)
  | change_pricing (pricing : List (String × ℚ))
  | allocate_budget (allocation : List (String × ℚ))
  | modify_inventory_policy (inventory : List (String × ℚ))
  | trigger_cost_cutting (reduction_percent : Option ℚ)
  deriving DecidableEq, Repr

/-- An action proposal dict: `{id?, type, params, estimated_impact?,
risk_score?, reason?}`. -/
structure Action where
  id : Option String
  params : ActionParams
  estimated_impact : Option ℚ
  risk_score : Option ℚ
  reason : Option String
  deriving DecidableEq, Repr

/-- `StateTransition` (`state.py:112-127`).  The `datetime.utcnow()` wall
stamp is omitted: nothing in the engine or the claims reads it. -/
structure StateTransition where
  before : CompanyState
  after : CompanyState
  action : Action
  agent_role : Option String
  reason : String
  deriving DecidableEq, Repr

/-- `StateTransition.is_valid` (`state.py:129-147`). -/
def StateTransition.is_valid (t : StateTransition) : Bool :=
  if t.after.cash < 0 then false
  else if t.after.headcount < 0 then false
  else if t.after.version ≠ t.before.version + 1 then false
  else if t.after.timestamp < t.before.timestamp then false
  else true

/-! ## Time-lock (`src/backend/simulation/timelock.py:7-57`) -/

/-- A timeline event as configured in `timeline['events']`.  The
`parameter_impacts` mapping is represented by its three recognized levers;
unknown keys are ignored by `_apply_event` and so never observable.
`duration_days` is optional because the engine reads it with
`e.get('duration_days', 7)`. -/
structure TimelineEvent where
  timestamp : Time
  event_type : String
  duration_days : Option Int
  demand_multiplier : Option ℚ
  cost_multiplier : Option ℚ
  churn_delta : Option ℚ
  deriving DecidableEq, Repr

/-- An element of the list produced by `encrypt_future_events`
(`timelock.py:14-32`): either a plaintext event tagged `encrypted: False`, or
`{timestamp, encrypted: True, data: ciphertext}`.  The Fernet ciphertext is
symbolic: the payload under the key that encrypted it; `key = none` on the
plaintext branch, where no cipher is involved. -/
structure EncryptedEvent where
  timestamp : Time
  encrypted : Bool
  payload : TimelineEvent
  key : Option Nat
  deriving DecidableEq, Repr

/-- `TimeLock` (`timelock.py:7-12`): holds the Fernet key generated (or
received) at construction.  `Fernet.generate_key()` draws fresh OS
randomness, so the key is an entropy parameter of engine construction. -/
structure TimeLock where
  encryption_key : Nat
  deriving DecidableEq, Repr

/-- `TimeLock.encrypt_future_events` (`timelock.py:14-32`). -/
def TimeLock.encrypt_future_events (tl : TimeLock) (events : List TimelineEvent)
    (current_time : Time) : List EncryptedEvent :=
  events.map fun event =>
    if event.timestamp > current_time then
      { timestamp := event.timestamp, encrypted := true, payload := event,
        key := some tl.encryption_key }
    else
      { timestamp := event.timestamp, encrypted := false, payload := event,
        key := none }

/-- `TimeLock.get_accessible_events` (`timelock.py:34-45`): skip entries whose
`encrypted` field is truthy, keep those with `timestamp ≤ current_time`. -/
def TimeLock.get_accessible_events (events : List EncryptedEvent)
    (current_time : Time) : List EncryptedEvent :=
  events.filter fun event =>
    !event.encrypted && decide (event.timestamp ≤ current_time)

/-! ## Simulation engine (`src/backend/simulation/engine.py`) -/

/-- `blueprint['initial_conditions']` as read by `_initialize_state`
(`engine.py:51-75`): `cash`, `monthly_burn`, `headcount`,
`margins.gross` (default 0), `capacity` (default `{}`), `pricing`
(default `{}`). -/
structure Blueprint where
  cash : ℚ
  monthly_burn : ℚ
  headcount : Int
  gross_margin : ℚ
  capacity : List (String × ℚ)
  pricing : List (String × ℚ)
  deriving DecidableEq, Repr

/-- `timeline`: `{start_date, end_date, events}`. -/
structure Timeline where
  start_date : Time
  end_date : Time
  events : List TimelineEvent
  deriving DecidableEq, Repr

/-- An `event_history` record (`engine.py:186-190`): the event plus
`activated_at` and `tick`. -/
structure EventRecord where
  event : TimelineEvent
  activated_at : Time
  tick : Nat
  deriving DecidableEq, Repr

/-- `SimulationEngine` instance fields (`engine.py:12-49`).  `rng` is the
`random.Random(seed)` Mersenne state; the engine never consults it after
construction, so it is represented by the seed that determines it. -/
structure SimulationEngine where
  blueprint : Blueprint
  timeline : Timeline
  seed : Int
  tick_days : Int
  run_id : String
  current_tick : Nat
  rng : Int
  timelock : TimeLock
  encrypted_events : List EncryptedEvent
  current_time : Time
  end_time : Time
  state : CompanyState
  state_history : List CompanyState
  transitions : List StateTransition
  checkpoints : List (String × CompanyState)
  active_events : List TimelineEvent
  event_history : List EventRecord
  deriving DecidableEq, Repr

/-- `SimulationEngine._initialize_state` (`engine.py:51-75`). -/
def initialState (bp : Blueprint) (start : Time) : CompanyState :=
  { timestamp := start
    version := 0
    cash := bp.cash
    revenue_monthly := 0
    costs_monthly := bp.monthly_burn
    margin := bp.gross_margin
    headcount := bp.headcount
    capacity := bp.capacity
    utilization := []
    demand := []
    pricing := bp.pricing
    cac := []
    churn_rate := 0
    inventory := []
    backlog := []
    lead_times := []
    service_level := 1
    risk_flags := []
    compliance_score := 1
    metadata := [("growth_rate", 0)] }

/-- `SimulationEngine.__init__` (`engine.py:12-49`).  `timelock_key` is the
entropy consumed by `Fernet.generate_key()` inside `TimeLock()`. -/
def SimulationEngine.mkEngine (bp : Blueprint) (tl : Timeline) (seed : Int)
    (tick_days : Int) (run_id : String) (timelock_key : Nat) :
    SimulationEngine :=
  let timelock : TimeLock := { encryption_key := timelock_key }
  let st := initialState bp tl.start_date
  { blueprint := bp
    timeline := tl
    seed := seed
    tick_days := tick_days
    run_id := run_id
    current_tick := 0
    rng := seed
    timelock := timelock
    encrypted_events := timelock.encrypt_future_events tl.events tl.start_date
    current_time := tl.start_date
    end_time := tl.end_date
    state := st
    state_history := [st]
    transitions := []
    checkpoints := []
    active_events := []
    event_history := [] }

/-- `SimulationEngine._apply_action_to_state` (`engine.py:126-160`):
`updates = {'timestamp': self.current_time}` plus per-type field updates,
then `state.clone(**updates)`. -/
def applyActionToState (s : CompanyState) (a : Action) (now : Time) :
    CompanyState :=
  let base := { s.clone with timestamp := now }
  match a.params with
  | .adjust_hiring delta cost_per_head =>
      { base with
        headcount := max 0 (s.headcount + delta)
        costs_monthly :=
          s.costs_monthly + (delta : ℚ) * (cost_per_head.getD 10000) }
  | .change_pricing pricing =>
      { base with pricing := alistOverlay s.pricing pricing }
  | .allocate_budget allocation =>
      let total := alistSum allocation
      if total ≤ s.cash then { base with cash := s.cash - total } else base
  | .modify_inventory_policy inventory =>
      { base with inventory := alistOverlay s.inventory inventory }
  | .trigger_cost_cutting reduction_percent =>
      { base with
        costs_monthly :=
          s.costs_monthly * (1 - reduction_percent.getD (1 / 10)) }

/-- The idempotency guard of `apply_action` (`engine.py:97-102`):
`if action_id:` is Python truthiness, so a missing id and the empty string
both skip the duplicate scan. -/
def SimulationEngine.alreadyApplied (e : SimulationEngine) (a : Action) : Bool :=
  match a.id with
  | some i => i ≠ "" && e.transitions.any (fun t => t.action.id == some i)
  | none => false

/-- The candidate transition built by `apply_action` (`engine.py:104-114`). -/
def SimulationEngine.candidate (e : SimulationEngine) (a : Action)
    (agent_role : Option String) : StateTransition :=
  { before := e.state
    after := applyActionToState e.state a e.current_time
    action := a
    agent_role := agent_role
    reason := a.reason.getD "" }

/-- `SimulationEngine.apply_action` (`engine.py:93-124`). -/
def SimulationEngine.apply_action (e : SimulationEngine) (a : Action)
    (agent_role : Option String) : Bool × SimulationEngine :=
  if e.alreadyApplied a then
    (true, e)
  else
    let t := e.candidate a agent_role
    if t.is_valid then
      (true,
       { e with
         state := t.after
         state_history := e.state_history ++ [t.after]
         transitions := e.transitions ++ [t] })
    else
      (false, e)

/-- `SimulationEngine._apply_event` (`engine.py:198-215`): build `updates`
from the recognized `parameter_impacts`; when non-empty, clone the state with
them (stamped with `current_time`) and append it to history. -/
def SimulationEngine.apply_event (e : SimulationEngine) (ev : TimelineEvent) :
    SimulationEngine :=
  if ev.demand_multiplier.isSome || ev.cost_multiplier.isSome ||
      ev.churn_delta.isSome then
    let s := e.state
    let demand1 := match ev.demand_multiplier with
      | some m => s.demand.map (fun p => (p.1, p.2 * m))
      | none => s.demand
    let costs1 := match ev.cost_multiplier with
      | some m => s.costs_monthly * m
      | none => s.costs_monthly
    let churn1 := match ev.churn_delta with
      | some d => max 0 (min 1 (s.churn_rate + d))
      | none => s.churn_rate
    let s1 := { s.clone with
                timestamp := e.current_time
                demand := demand1
                costs_monthly := costs1
                churn_rate := churn1 }
    { e with state := s1, state_history := e.state_history ++ [s1] }
  else
    e

/-- The body of the `for event in events:` loop in `tick`
(`engine.py:182-191`): activation window `abs((event_time - current_time)
.days) < tick_days`; on activation, append to `active_events` and
`event_history`, then `_apply_event`. -/
def SimulationEngine.activationStep (acc : SimulationEngine)
    (ev : TimelineEvent) : SimulationEngine :=
  if ((ev.timestamp - acc.current_time).natAbs : Int) < acc.tick_days then
    let acc1 := { acc with
                  active_events := acc.active_events ++ [ev]
                  event_history := acc.event_history ++
                    [({ event := ev, activated_at := acc.current_time,
                        tick := acc.current_tick } : EventRecord)] }
    acc1.apply_event ev
  else
    acc

/-- `SimulationEngine._update_state_for_tick` (`engine.py:217-231`):
the cash-flow step. -/
def SimulationEngine.update_state_for_tick (e : SimulationEngine) :
    SimulationEngine :=
  let days_fraction : ℚ := (e.tick_days : ℚ) / 30
  let revenue := e.state.revenue_monthly * days_fraction
  let costs := e.state.costs_monthly * days_fraction
  let net_cash_flow := revenue - costs
  let new_cash := e.state.cash + net_cash_flow
  let s1 := { e.state.clone with timestamp := e.current_time, cash := new_cash }
  { e with state := s1, state_history := e.state_history ++ [s1] }

/-- `SimulationEngine.tick` (`engine.py:162-196`).  Note the source binds
`events = context.get('active_events', [])` — the engine's own
already-active list, captured before the expiry rebuild — and iterates
*that* in the "Add new events" loop; it never consults the timeline's
`encrypted_events` here. -/
def SimulationEngine.tick (e : SimulationEngine) : Bool × SimulationEngine :=
  if e.current_time ≥ e.end_time then
    (false, e)
  else
    let e1 := { e with
                current_tick := e.current_tick + 1
                current_time := e.current_time + e.tick_days }
    let events := e1.active_events
    let e2 := { e1 with
                active_events := e1.active_events.filter (fun ev =>
                  decide (ev.timestamp + ev.duration_days.getD 7 >
                    e1.current_time)) }
    let e3 := events.foldl SimulationEngine.activationStep e2
    (true, e3.update_state_for_tick)

/-- `e.tick()` iterated `n` times, keeping the engine. -/
def SimulationEngine.tickN (e : SimulationEngine) : Nat → SimulationEngine
  | 0 => e
  | n + 1 => (e.tick.2).tickN n

/-- The sequence of `state.hash()` values observed after each of `n` ticks. -/
def SimulationEngine.hashSeq (e : SimulationEngine) : Nat → List CompanyState
  | 0 => []
  | n + 1 => (e.tick.2).state.hash :: (e.tick.2).hashSeq n

/-- `SimulationEngine.create_checkpoint` (`engine.py:233-235`):
`self.checkpoints[name] = self.state`. -/
def SimulationEngine.create_checkpoint (e : SimulationEngine) (name : String) :
    SimulationEngine :=
  { e with checkpoints := alistSet e.checkpoints name e.state }

/-- `SimulationEngine.restore_checkpoint` (`engine.py:237-250`). -/
def SimulationEngine.restore_checkpoint (e : SimulationEngine) (name : String) :
    Bool × SimulationEngine :=
  match alistGet e.checkpoints name with
  | none => (false, e)
  | some checkpoint_state =>
      (true,
       { e with
         state := checkpoint_state
         current_time := checkpoint_state.timestamp
         state_history := e.state_history.filter (fun s =>
           decide (s.timestamp ≤ checkpoint_state.timestamp))
         transitions := e.transitions.filter (fun t =>
           decide (t.before.timestamp ≤ checkpoint_state.timestamp)) })

/-! ## Audit ledger (`src/backend/audit/ledger.py`) -/

/-- The `data` dict of a ledger entry: the fields the ledger itself ever
reads (`data.get('id')`) plus an opaque payload standing for the rest of the
dict's (canonically serialized) content. -/
structure LedgerData where
  id : Option String
  payload : Int
  deriving DecidableEq, Repr

/-- A ledger entry minus `prev_signature` and `signature`: the remaining
canonically-serialized fields (`ledger.py:44-53`).  `timestamp` is the
`datetime.utcnow()` wall stamp taken at append time. -/
structure EntryFields where
  run_id : String
  sequence : Nat
  timestamp : Time
  sim_time : Time
  entry_type : String
  agent_role : Option String
  data : LedgerData
  deriving DecidableEq, Repr

/-- A symbolic RSA-PSS signature (`ledger.py:56-64`): the signing key
together with the exact content signed — the entry's fields and its
`prev_signature` (which is itself a signature or absent, hence the two
constructors).  Determined by key and message, and verification against any
other message fails, exactly the properties the source relies on. -/
inductive Signature where
  | base (key : Nat) (fields : EntryFields)
  | chain (key : Nat) (fields : EntryFields) (prev : Signature)
  deriving DecidableEq, Repr

/-- `private_key.sign(entry_json)` where `entry_json` is the canonical JSON
of the fields plus the (possibly null) `prev_signature`. -/
def signEntry (key : Nat) (fields : EntryFields) (prev : Option Signature) :
    Signature :=
  match prev with
  | none => .base key fields
  | some p => .chain key fields p

/-- A stored ledger entry (`ledger.py:44-66`): the signed fields, the
`prev_signature` link and the entry's own signature. -/
structure LedgerEntry where
  fields : EntryFields
  prev_signature : Option Signature
  signature : Signature
  deriving DecidableEq, Repr

/-- `AuditLedger` (`ledger.py:9-22`).  `rsa.generate_private_key` draws
fresh OS randomness at construction, so the key is an entropy parameter;
the public key is the verification handle of the same key. -/
structure AuditLedger where
  private_key : Nat
  entries : List LedgerEntry
  last_signature : Option Signature
  deriving DecidableEq, Repr

/-- `AuditLedger.__init__` (`ledger.py:12-22`) with key-generation entropy
made explicit. -/
def AuditLedger.mkLedger (key_entropy : Nat) : AuditLedger :=
  { private_key := key_entropy, entries := [], last_signature := none }

/-- The duplicate scan of `AuditLedger.append` (`ledger.py:34-39`):
`if entry_id:` is Python truthiness — a missing id and the empty string
both skip the scan. -/
def AuditLedger.findDup (l : AuditLedger) (data : LedgerData) :
    Option LedgerEntry :=
  match data.id with
  | some i =>
      if i ≠ "" then
        l.entries.find? (fun existing => existing.fields.data.id == some i)
      else none
  | none => none

/-- `AuditLedger.append` (`ledger.py:24-70`).  `wall_clock` is the
`datetime.utcnow()` value observed by this call.  Return the recorded
duplicate when there is one, else sign and store a new entry whose
`sequence` is the current global entry count and whose `prev_signature` is
the ledger's `last_signature`. -/
def AuditLedger.append (l : AuditLedger) (run_id : String) (sim_time : Time)
    (entry_type : String) (data : LedgerData) (agent_role : Option String)
    (wall_clock : Time) : LedgerEntry × AuditLedger :=
  match l.findDup data with
  | some existing => (existing, l)
  | none =>
      let fields : EntryFields :=
        { run_id := run_id
          sequence := l.entries.length
          timestamp := wall_clock
          sim_time := sim_time
          entry_type := entry_type
          agent_role := agent_role
          data := data }
      let signature := signEntry l.private_key fields l.last_signature
      let entry : LedgerEntry :=
        { fields := fields, prev_signature := l.last_signature,
          signature := signature }
      (entry,
       { l with entries := l.entries ++ [entry],
                last_signature := some signature })

/-- The loop of `verify_chain` (`ledger.py:74-102`): check
`entry.prev_signature` against the running `prev_sig`, then verify the
stored signature against the canonical entry-minus-signature, then continue
with the stored signature as the new `prev_sig`; any failure short-circuits
to `false`. -/
def verifyFrom (key : Nat) : Option Signature → List LedgerEntry → Bool
  | _, [] => true
  | prev, entry :: rest =>
      if entry.prev_signature ≠ prev then false
      else if entry.signature ≠ signEntry key entry.fields entry.prev_signature
        then false
      else verifyFrom key (some entry.signature) rest

/-- `AuditLedger.verify_chain` (`ledger.py:72-104`): verifies the single
global chain over all stored entries; it takes no `run_id`. -/
def AuditLedger.verify_chain (l : AuditLedger) : Bool :=
  verifyFrom l.private_key none l.entries

/-- One `append` call's arguments, `utcnow` included. -/
structure AppendInput where
  run_id : String
  sim_time : Time
  entry_type : String
  data : LedgerData
  agent_role : Option String
  wall_clock : Time
  deriving DecidableEq, Repr

/-- Drive a ledger through a sequence of `append` calls. -/
def runAppends (l : AuditLedger) (ins : List AppendInput) : AuditLedger :=
  ins.foldl (fun acc x =>
    (acc.append x.run_id x.sim_time x.entry_type x.data x.agent_role
      x.wall_clock).2) l

/-- The sequence of `entries[].signature` values of a ledger. -/
def AuditLedger.sigSeq (l : AuditLedger) : List Signature :=
  l.entries.map (fun entry => entry.signature)

/-- In-place mutation `entries[i]['data'] = d` of a stored entry
(the tamper scenario of the chain-integrity claim). -/
def mutateData : List LedgerEntry → Nat → LedgerData → List LedgerEntry
  | [], _, _ => []
  | entry :: rest, 0, d =>
      { entry with fields := { entry.fields with data := d } } :: rest
  | entry :: rest, i + 1, d => entry :: mutateData rest i d

/-! ## Policy engine (`src/backend/policy/engine.py`) -/

/-- `PolicyDecision` (`policy/engine.py:4-7`). -/
inductive PolicyDecision where
  | approve
  | deny
  | escalate
  deriving DecidableEq, Repr

/-- One violation string appended to `violated` (`policy/engine.py:39-63`),
with the values interpolated into the source's message retained as fields. -/
inductive PolicyViolation where
  | spend_limit (total limit : ℚ)
  | pricing_change (product : String) (change max_change : ℚ)
  | hiring_velocity (delta max_velocity : Int)
  deriving DecidableEq, Repr

/-- `PolicyResult` (`policy/engine.py:9-20`); the human-readable `reason`
string is determined by the decision and violations and is not modelled. -/
structure PolicyResult where
  decision : PolicyDecision
  violated_rules : List PolicyViolation
  deriving DecidableEq, Repr

/-- The `policies` mapping as read by `PolicyEngine`
(`policy/engine.py:25-73`).  Each option is `Option`al because the source
reads it with `.get(..., default)`; `spend_limit_monthly` defaults to
`float('inf')`, i.e. no finite limit, hence `none` means "never violated". -/
structure Policies where
  spend_limit_monthly : Option ℚ
  max_percent_change_pricing : Option ℚ
  hiring_velocity_max : Option Int
  approval_threshold : Option ℚ
  risk_appetite : Option ℚ
  deriving DecidableEq, Repr

/-- The slice of the state dict `evaluate_action` reads:
`state.get('pricing', {})`. -/
structure PolicyState where
  pricing : List (String × ℚ)
  deriving DecidableEq, Repr

/-- The `violated` list collected by `evaluate_action`
(`policy/engine.py:39-63`).  The source tests `action_type` with three
independent `if`s; an action has exactly one type, so exactly one branch can
contribute, which the single `match` reflects. -/
def hardViolations (pol : Policies) (a : Action) (st : PolicyState) :
    List PolicyViolation :=
  match a.params with
  | .allocate_budget allocation =>
      let total_spend := alistSum allocation
      match pol.spend_limit_monthly with
      | some limit =>
          if total_spend > limit then [.spend_limit total_spend limit] else []
      | none => []
  | .change_pricing pricing =>
      let max_change := pol.max_percent_change_pricing.getD (1 / 5)
      pricing.foldl (fun acc p =>
        let old_price := (alistGet st.pricing p.1).getD p.2
        if old_price > 0 then
          let change := |p.2 - old_price| / old_price
          if change > max_change then
            acc ++ [.pricing_change p.1 change max_change]
          else acc
        else acc) []
  | .adjust_hiring delta _ =>
      let max_velocity := pol.hiring_velocity_max.getD 10
      if |delta| > max_velocity then [.hiring_velocity |delta| max_velocity]
      else []
  | _ => []

/-- `PolicyEngine.evaluate_action` (`policy/engine.py:28-92`).  The
`agent_role` parameter is accepted and unused, as in the source. -/
def evaluate_action (pol : Policies) (a : Action) (st : PolicyState)
    (_agent_role : String) : PolicyResult :=
  let violated := hardViolations pol a st
  let needs_approval :=
    (a.estimated_impact.getD 0) > pol.approval_threshold.getD 100000
  let too_risky := (a.risk_score.getD 0) > pol.risk_appetite.getD (1 / 2)
  if violated ≠ [] then
    { decision := .deny, violated_rules := violated }
  else if needs_approval || too_risky then
    { decision := .escalate, violated_rules := [] }
  else
    { decision := .approve, violated_rules := [] }

/-! ## `verify_no_future_access` (`timelock.py:87-107`)

The `agent_input` argument is an arbitrary JSON-like structure of nested
dicts, lists and scalars, encoded as a first-order tree: a dict is a spine
of `objCons` cells ending in `objNil`, a list a spine of `arrCons` cells
ending in `arrNil`.  ISO timestamp strings are modelled as decimal numerals
of the day count; `datetime.fromisoformat` parses exactly those and raises
`ValueError` on everything else. -/

/-- A JSON-like value handed to an agent. -/
inductive JVal where
  | str (s : String)
  | num (n : Int)
  | objNil
  | objCons (key : String) (value : JVal) (rest : JVal)
  | arrNil
  | arrCons (value : JVal) (rest : JVal)
  deriving DecidableEq, Repr

/-- The model of `datetime.fromisoformat`: `some` on non-empty decimal
day-count numerals, `none` (a raised `ValueError`) on anything else. -/
def fromisoformatOpt (s : String) : Option Int :=
  match s.data with
  | [] => none
  | cs =>
      if cs.all Char.isDigit then
        some (Int.ofNat (cs.foldl (fun acc c => acc * 10 + (c.toNat - 48)) 0))
      else none

/-- `key in ['timestamp', 'time', 'date']` (`timelock.py:94`). -/
def timeLikeKey (k : String) : Bool :=
  k == "timestamp" || k == "time" || k == "date"

/-- The per-field check of `check_timestamps` (`timelock.py:94-97`): on a
time-like key holding a string, parse it and compare; `false` means a
`ValueError` escaped (unparseable string or future timestamp).  Non-string
values under a time-like key are not checked (the `datetime`-instance case
does not arise for JSON input). -/
def fieldOk (current_time : Time) (k : String) (v : JVal) : Bool :=
  if timeLikeKey k then
    match v with
    | .str s =>
        match fromisoformatOpt s with
        | some ts => decide (ts ≤ current_time)
        | none => false
    | _ => true
  else true

/-- `check_timestamps` (`timelock.py:91-101`): `true` iff no `ValueError`
is raised anywhere in the structure — each dict item's time-like fields are
checked and every value, dict or list member is visited recursively. -/
def checkVal (current_time : Time) : JVal → Bool
  | .str _ => true
  | .num _ => true
  | .objNil => true
  | .objCons k v rest =>
      fieldOk current_time k v && checkVal current_time v &&
        checkVal current_time rest
  | .arrNil => true
  | .arrCons v rest => checkVal current_time v && checkVal current_time rest

/-- `verify_no_future_access` (`timelock.py:87-107`): run the recursive
check, catch `ValueError`, report the outcome as a bool. -/
def verify_no_future_access (agent_input : JVal) (current_time : Time) :
    Bool :=
  checkVal current_time agent_input

/-- The structure contains, anywhere, a time-like key holding a string that
`datetime.fromisoformat` cannot parse. -/
def hasUnparseable : JVal → Bool
  | .str _ => false
  | .num _ => false
  | .objNil => false
  | .objCons k v rest =>
      (timeLikeKey k &&
        (match v with
         | .str s => (fromisoformatOpt s).isNone
         | _ => false)) ||
        hasUnparseable v || hasUnparseable rest
  | .arrNil => false
  | .arrCons v rest => hasUnparseable v || hasUnparseable rest

/-! ## Derived views and specification predicates -/

/-- The engine components that determine the future evolution of
`state` under `tick`: `(state, current_time, end_time, tick_days,
active_events)`.  Bookkeeping fields (histories, counters, checkpoints, the
RNG that `tick` never consults, the time-lock key) are deliberately outside
the view. -/
def tickView (e : SimulationEngine) :
    CompanyState × Time × Time × Int × List TimelineEvent :=
  (e.state, e.current_time, e.end_time, e.tick_days, e.active_events)

/-- The engine fields `tick` leaves untouched and `restore_checkpoint`
relies on: checkpoints, end time and tick length. -/
def staticView (e : SimulationEngine) :
    List (String × CompanyState) × Time × Int :=
  (e.checkpoints, e.end_time, e.tick_days)

/-- The invariant every reachable engine satisfies: the live state is
stamped with the engine clock, and (because the activation loop can only
feed `active_events` from itself) the active-event list is empty. -/
def ReachInv (e : SimulationEngine) : Prop :=
  e.state.timestamp = e.current_time ∧ e.active_events = []

/-- The hash-chain shape: each entry's `prev_signature` is the previous
entry's `signature`, starting from `prev` (`null` for the first entry of the
whole ledger). -/
def chainLinked : Option Signature → List LedgerEntry → Prop
  | _, [] => True
  | prev, entry :: rest =>
      entry.prev_signature = prev ∧ chainLinked (some entry.signature) rest

/-- The signature closing a chain: `prev` if the list is empty, else the
last entry's signature. -/
def chainEnd : Option Signature → List LedgerEntry → Option Signature
  | prev, [] => prev
  | _, entry :: rest => chainEnd (some entry.signature) rest

/-- The ledger invariant maintained by `append`: dense global sequences,
a verifying global chain, and `last_signature` closing it. -/
structure LedgerInv (l : AuditLedger) : Prop where
  seqs : l.entries.map (fun entry => entry.fields.sequence) =
    List.range l.entries.length
  verified : verifyFrom l.private_key none l.entries = true
  last : l.last_signature = chainEnd none l.entries

/-! ## Concrete fixtures (spec §8, scenarios S1-S4) -/

/-- The S1/S2 blueprint: cash 5,000,000, monthly burn 200,000,
headcount 20. -/
def bpS1 : Blueprint :=
  { cash := 5000000, monthly_burn := 200000, headcount := 20,
    gross_margin := 0, capacity := [], pricing := [] }

/-- The S1 timeline: one year, no events (day-count embedding of
2020-01-01 → 2020-12-31). -/
def tlEmpty : Timeline := { start_date := 0, end_date := 365, events := [] }

/-- The S1 initial state. -/
def stateS1 : CompanyState := initialState bpS1 0

/-- The S1/S2 engine, seed 42, weekly ticks. -/
def engineS2 : SimulationEngine :=
  SimulationEngine.mkEngine bpS1 tlEmpty 42 7 "test-run" 0

/-- The S2 action `{id: "a1", type: adjust_hiring,
params: {delta: 5, cost_per_head: 10000}}`. -/
def actS2 : Action :=
  { id := some "a1", params := .adjust_hiring 5 (some 10000),
    estimated_impact := none, risk_score := none, reason := none }

/-- The S2 action with the empty string as id — non-null, but falsy in
Python, so `apply_action` never records or deduplicates it. -/
def actEmptyId : Action :=
  { id := some "", params := .adjust_hiring 5 (some 10000),
    estimated_impact := none, risk_score := none, reason := none }

/-- An `allocate_budget` action whose total (6,000,000) exceeds the S1
cash. -/
def overBudget : Action :=
  { id := none, params := .allocate_budget [("ads", 6000000)],
    estimated_impact := none, risk_score := none, reason := none }

/-- A timeline event one tick after start with a doubling cost impact. -/
def eventC4 : TimelineEvent :=
  { timestamp := 7, event_type := "supply_shock", duration_days := some 30,
    demand_multiplier := none, cost_multiplier := some 2, churn_delta := none }

/-- The S1 timeline carrying `eventC4`. -/
def tlC4 : Timeline := { start_date := 0, end_date := 365, events := [eventC4] }

/-- The S1 engine over the event-carrying timeline. -/
def engineC4 : SimulationEngine :=
  SimulationEngine.mkEngine bpS1 tlC4 42 7 "test-run" 0

/-- A blueprint whose initial cash is already negative: every candidate
transition from its initial state fails the `after.cash ≥ 0` check. -/
def bpNeg : Blueprint :=
  { cash := -1, monthly_burn := 200000, headcount := 20,
    gross_margin := 0, capacity := [], pricing := [] }

/-- Engine constructed from `bpNeg`. -/
def engineNeg : SimulationEngine :=
  SimulationEngine.mkEngine bpNeg tlEmpty 42 7 "test-run" 0

/-- A no-op hiring action with a fresh id. -/
def actNoop : Action :=
  { id := some "a-noop", params := .adjust_hiring 0 none,
    estimated_impact := none, risk_score := none, reason := none }

/-- A single ledger append input. -/
def apIn : AppendInput :=
  { run_id := "test-run", sim_time := 0, entry_type := "test",
    data := { id := some "e1", payload := 1 }, agent_role := none,
    wall_clock := 0 }

/-- Appends interleaving two run ids: A, B, A (distinct data ids). -/
def insInterleaved : List AppendInput :=
  [{ run_id := "A", sim_time := 0, entry_type := "t",
     data := { id := some "1", payload := 0 }, agent_role := none,
     wall_clock := 0 },
   { run_id := "B", sim_time := 0, entry_type := "t",
     data := { id := some "2", payload := 0 }, agent_role := none,
     wall_clock := 0 },
   { run_id := "A", sim_time := 0, entry_type := "t",
     data := { id := some "3", payload := 0 }, agent_role := none,
     wall_clock := 0 }]

/-- The ledger after the interleaved appends. -/
def ledgerInterleaved : AuditLedger :=
  runAppends (AuditLedger.mkLedger 0) insInterleaved

/-- Two appends with distinct data ids on one run. -/
def insTwo : List AppendInput :=
  [{ run_id := "test-run", sim_time := 0, entry_type := "t",
     data := { id := some "1", payload := 10 }, agent_role := none,
     wall_clock := 0 },
   { run_id := "test-run", sim_time := 1, entry_type := "t",
     data := { id := some "2", payload := 20 }, agent_role := none,
     wall_clock := 1 }]

/-- The ledger after `insTwo`. -/
def ledgerTwo : AuditLedger := runAppends (AuditLedger.mkLedger 0) insTwo

/-- Replacement data used to tamper with a stored entry. -/
def tamperData : LedgerData := { id := some "1", payload := 999 }

/-- The S3 policies: spend limit 100,000. -/
def polS3 : Policies :=
  { spend_limit_monthly := some 100000, max_percent_change_pricing := none,
    hiring_velocity_max := none, approval_threshold := none,
    risk_appetite := none }

/-- The S3 over-limit allocation (80,000 + 40,000), with an estimated
impact far above the approval threshold. -/
def actS3 : Action :=
  { id := none,
    params := .allocate_budget [("ads", 80000), ("ops", 40000)],
    estimated_impact := some 100000000, risk_score := some 1,
    reason := none }

/-- An agent input whose `timestamp` field holds a string
`datetime.fromisoformat` cannot parse, and which carries no future
information at all. -/
def jBad : JVal := .objCons "timestamp" (.str "not-a-date") .objNil

/-- A past event (timestamp at the epoch). -/
def evPast : TimelineEvent :=
  { timestamp := 0, event_type := "kickoff", duration_days := none,
    demand_multiplier := none, cost_multiplier := none, churn_delta := none }

/-- The plaintext entry `encrypt_future_events` produces for `evPast`. -/
def encPast : EncryptedEvent :=
  { timestamp := 0, encrypted := false, payload := evPast, key := none }

/-! # Theorems -/

/-! ## C3 — future-blindness of the time-locked view -/

/-- C3: for every event list, lock time `t0` and query time `current_time`,
every element returned by
`get_accessible_events(encrypt_future_events(events, t0), current_time)`
has `encrypted == false` and `timestamp ≤ current_time`; in particular no
event whose timestamp exceeds `current_time` ever appears in plaintext in
the returned list. -/
theorem C3_future_blind (tlk : TimeLock) (events : List TimelineEvent)
    (t0 current_time : Time) (e : EncryptedEvent)
    (h : e ∈ TimeLock.get_accessible_events
        (tlk.encrypt_future_events events t0) current_time) :
    e.encrypted = false ∧ e.timestamp ≤ current_time := by
  unfold TimeLock.get_accessible_events at h
  obtain ⟨-, hp⟩ := List.mem_filter.mp h
  simpa using hp

/-- Witness for C3 at a concrete input: the epoch event is returned at query
time 10 with `encrypted = false` and a past timestamp. -/
theorem C3_witness :
    encPast ∈ TimeLock.get_accessible_events
      (TimeLock.encrypt_future_events { encryption_key := 0 } [evPast] 0) 10 ∧
    encPast.encrypted = false ∧ encPast.timestamp ≤ 10 :=
  ⟨by decide,
   C3_future_blind { encryption_key := 0 } [evPast] 0 10 encPast (by decide)⟩

/-! ## C4 — tick event lifecycle -/

/-- C4 (behaviour at the failing input): the claim says a tick reaching an
event's timestamp activates it (adding it to `active_events`) and applies
its `parameter_impacts` (here `cost_multiplier = 2`, so
`costs_monthly = 400000`).  The code instead iterates the context key
`'active_events'` — the engine's own already-active list, initially empty
and only ever fed from itself — so after the tick that reaches `eventC4`'s
timestamp nothing is activated, nothing is recorded, and `costs_monthly` is
unchanged. -/
theorem C4_event_never_activates :
    (engineC4.tick).1 = true ∧
    (engineC4.tick).2.current_tick = 1 ∧
    (engineC4.tick).2.current_time = 7 ∧
    (engineC4.tick).2.active_events = [] ∧
    (engineC4.tick).2.event_history = [] ∧
    (engineC4.tick).2.state.costs_monthly = 200000 := by
  decide

/-! ## C8 — policy DENY priority -/

/-- C8: whenever `evaluate_action` finds at least one hard-constraint
violation, it returns DENY with the complete violation list — never
ESCALATE — regardless of `estimated_impact` and `risk_score`. -/
theorem C8_deny_priority (pol : Policies) (a : Action) (st : PolicyState)
    (role : String) (h : hardViolations pol a st ≠ []) :
    evaluate_action pol a st role =
      { decision := .deny, violated_rules := hardViolations pol a st } ∧
    (evaluate_action pol a st role).decision ≠ PolicyDecision.escalate := by
  have he : evaluate_action pol a st role =
      { decision := .deny, violated_rules := hardViolations pol a st } := by
    unfold evaluate_action
    rw [if_pos h]
  exact ⟨he, by rw [he]; simp⟩

/-- Witness for C8 at the S3 scenario: the 120,000 allocation violates the
100,000 spend limit while `estimated_impact` far exceeds any approval
threshold; the decision is DENY, not ESCALATE. -/
theorem C8_witness :
    hardViolations polS3 actS3 { pricing := [] } ≠ [] ∧
    evaluate_action polS3 actS3 { pricing := [] } "ceo" =
      { decision := .deny,
        violated_rules := hardViolations polS3 actS3 { pricing := [] } } ∧
    (evaluate_action polS3 actS3 { pricing := [] } "ceo").decision ≠
      PolicyDecision.escalate := by
  have hv : hardViolations polS3 actS3 { pricing := [] } =
      [.spend_limit 120000 100000] := by
    norm_num [hardViolations, polS3, actS3, alistSum]
  have hne : hardViolations polS3 actS3 { pricing := [] } ≠ [] := by
    rw [hv]; simp
  obtain ⟨h1, h2⟩ := C8_deny_priority polS3 actS3 { pricing := [] } "ceo" hne
  exact ⟨hne, h1, h2⟩

/-! ## C9 — allocate_budget semantics -/

/-- C9 counterexample: from the S1 state, an over-budget allocation
(6,000,000 > 5,000,000 cash) is *not* "no change to the state": the
candidate state still carries `version + 1` (and the refreshed timestamp),
so it differs from the input state. -/
theorem C9_counterexample :
    applyActionToState stateS1 overBudget 0 ≠ stateS1 := by
  intro h
  have hv : (applyActionToState stateS1 overBudget 0).version =
      stateS1.version := by rw [h]
  revert hv
  norm_num [applyActionToState, overBudget, stateS1, initialState, bpS1,
    alistSum, CompanyState.clone]

/-- C9 as amended: for every state and `allocate_budget` action, if
`sum(allocation) ≤ cash` the result's cash is `cash − sum(allocation)`,
otherwise cash is unchanged; in both branches every field other than
`version` (incremented by `clone`) and `timestamp` (refreshed to the
engine's current time) is unchanged. -/
theorem C9_allocate_budget (s : CompanyState)
    (allocation : List (String × ℚ)) (i : Option String) (ei rs : Option ℚ)
    (rsn : Option String) (now : Time) :
    (applyActionToState s
        { id := i, params := .allocate_budget allocation,
          estimated_impact := ei, risk_score := rs, reason := rsn } now).cash =
      (if alistSum allocation ≤ s.cash then s.cash - alistSum allocation
       else s.cash) ∧
    (applyActionToState s
        { id := i, params := .allocate_budget allocation,
          estimated_impact := ei, risk_score := rs, reason := rsn }
      now).version = s.version + 1 ∧
    (applyActionToState s
        { id := i, params := .allocate_budget allocation,
          estimated_impact := ei, risk_score := rs, reason := rsn }
      now).timestamp = now ∧
    (applyActionToState s
        { id := i, params := .allocate_budget allocation,
          estimated_impact := ei, risk_score := rs, reason := rsn }
      now).headcount = s.headcount ∧
    (applyActionToState s
        { id := i, params := .allocate_budget allocation,
          estimated_impact := ei, risk_score := rs, reason := rsn }
      now).costs_monthly = s.costs_monthly ∧
    (applyActionToState s
        { id := i, params := .allocate_budget allocation,
          estimated_impact := ei, risk_score := rs, reason := rsn }
      now).revenue_monthly = s.revenue_monthly ∧
    (applyActionToState s
        { id := i, params := .allocate_budget allocation,
          estimated_impact := ei, risk_score := rs, reason := rsn }
      now).pricing = s.pricing ∧
    (applyActionToState s
        { id := i, params := .allocate_budget allocation,
          estimated_impact := ei, risk_score := rs, reason := rsn }
      now).inventory = s.inventory ∧
    (applyActionToState s
        { id := i, params := .allocate_budget allocation,
          estimated_impact := ei, risk_score := rs, reason := rsn }
      now).demand = s.demand ∧
    (applyActionToState s
        { id := i, params := .allocate_budget allocation,
          estimated_impact := ei, risk_score := rs, reason := rsn }
      now).churn_rate = s.churn_rate := by
  unfold applyActionToState CompanyState.clone
  dsimp only
  split <;> simp

/-! ## C10 — unparseable time-like fields are rejected, not raised -/

/-- `check_timestamps` raises (hence the catch yields `false`) whenever the
structure holds a time-like key with an unparseable string. -/
theorem checkVal_false_of_hasUnparseable (current_time : Time) :
    ∀ j : JVal, hasUnparseable j = true → checkVal current_time j = false := by
  intro j
  induction j with
  | str s => intro h; simp [hasUnparseable] at h
  | num n => intro h; simp [hasUnparseable] at h
  | objNil => intro h; simp [hasUnparseable] at h
  | objCons k v rest ihv ihr =>
      intro h
      simp only [hasUnparseable, Bool.or_eq_true, Bool.and_eq_true] at h
      rcases h with (⟨hk, hbad⟩ | hv) | hr
      · have hf : fieldOk current_time k v = false := by
          cases v with
          | str s =>
              have hbad1 : (fromisoformatOpt s).isNone = true := hbad
              simp only [fieldOk, hk, if_true]
              cases hopt : fromisoformatOpt s with
              | none => simp
              | some ts => rw [hopt] at hbad1; simp at hbad1
          | num n => simp at hbad
          | objNil => simp at hbad
          | objCons k1 v1 r1 => simp at hbad
          | arrNil => simp at hbad
          | arrCons v1 r1 => simp at hbad
        simp [checkVal, hf]
      · simp [checkVal, ihv hv]
      · simp [checkVal, ihr hr]
  | arrNil => intro h; simp [hasUnparseable] at h
  | arrCons v rest ihv ihr =>
      intro h
      simp only [hasUnparseable, Bool.or_eq_true] at h
      rcases h with hv | hr
      · simp [checkVal, ihv hv]
      · simp [checkVal, ihr hr]

/-- C10: whenever a field named `timestamp`, `time` or `date` holds a string
`datetime.fromisoformat` cannot parse, the raised `ValueError` is caught and
`verify_no_future_access` reports failure (returns `false`) instead of
raising or ignoring the field — even when the structure holds no future
information at all. -/
theorem C10_unparseable_rejected (j : JVal) (current_time : Time)
    (h : hasUnparseable j = true) :
    verify_no_future_access j current_time = false :=
  checkVal_false_of_hasUnparseable current_time j h

/-- Witness for C10: `{"timestamp": "not-a-date"}` holds no future
information, yet is rejected. -/
theorem C10_witness :
    hasUnparseable jBad = true ∧ verify_no_future_access jBad 0 = false :=
  ⟨by decide, C10_unparseable_rejected jBad 0 (by decide)⟩

/-! ## `apply_action` case lemmas -/

/-- Unfold of `apply_action` on the idempotent-return path
(`engine.py:97-102`). -/
theorem apply_action_dup {e : SimulationEngine} {a : Action}
    {role : Option String} (h : e.alreadyApplied a = true) :
    e.apply_action a role = (true, e) := by
  unfold SimulationEngine.apply_action
  rw [h]
  rfl

/-- Unfold of `apply_action` on the commit path (`engine.py:104-124`). -/
theorem apply_action_commit {e : SimulationEngine} {a : Action}
    {role : Option String} (hd : e.alreadyApplied a = false)
    (hv : (e.candidate a role).is_valid = true) :
    e.apply_action a role =
      (true,
       { e with
         state := (e.candidate a role).after
         state_history := e.state_history ++ [(e.candidate a role).after]
         transitions := e.transitions ++ [e.candidate a role] }) := by
  unfold SimulationEngine.apply_action
  rw [hd]
  dsimp only
  rw [hv]
  rfl

/-- Unfold of `apply_action` on the rejection path (`engine.py:116-117`). -/
theorem apply_action_reject {e : SimulationEngine} {a : Action}
    {role : Option String} (hd : e.alreadyApplied a = false)
    (hv : (e.candidate a role).is_valid = false) :
    e.apply_action a role = (false, e) := by
  unfold SimulationEngine.apply_action
  rw [hd]
  dsimp only
  rw [hv]
  rfl

/-- `is_valid` unfolded into the four invariant conditions
(`state.py:129-147`). -/
theorem is_valid_iff (t : StateTransition) :
    t.is_valid = true ↔
      0 ≤ t.after.cash ∧ 0 ≤ t.after.headcount ∧
      t.after.version = t.before.version + 1 ∧
      t.before.timestamp ≤ t.after.timestamp := by
  unfold StateTransition.is_valid
  constructor
  · intro h
    by_cases h1 : t.after.cash < 0
    · simp [h1] at h
    rw [if_neg h1] at h
    by_cases h2 : t.after.headcount < 0
    · simp [h2] at h
    rw [if_neg h2] at h
    by_cases h3 : t.after.version ≠ t.before.version + 1
    · simp [h3] at h
    rw [if_neg h3] at h
    by_cases h4 : t.after.timestamp < t.before.timestamp
    · simp [h4] at h
    exact ⟨not_lt.mp h1, not_lt.mp h2, not_ne_iff.mp h3, not_lt.mp h4⟩
  · rintro ⟨c1, c2, c3, c4⟩
    rw [if_neg (not_lt.mpr c1), if_neg (not_lt.mpr c2),
      if_neg (fun hne => hne c3), if_neg (not_lt.mpr c4)]

/-! ## C2 — at-most-once action application -/

/-- C2 counterexample: the S2 action with the *empty-string* id — non-null,
but falsy in Python — is re-applied by the second call: after two calls the
headcount is 30, not the 25 a single application leaves, so the double
application does not equal the single one. -/
theorem C2_counterexample :
    ((engineS2.apply_action actEmptyId none).2.apply_action actEmptyId
        none).2.state ≠ (engineS2.apply_action actEmptyId none).2.state ∧
    ((engineS2.apply_action actEmptyId none).2.apply_action actEmptyId
        none).2.state.headcount = 30 ∧
    (engineS2.apply_action actEmptyId none).2.state.headcount = 25 := by
  refine ⟨by decide, by decide, by decide⟩

/-- C2 as amended: for every action whose id is non-null *and non-empty*,
the second `apply_action` call changes nothing and returns exactly what the
first call returned (`true` whenever the first application committed or the
id was already recorded; `false` only when the first application was itself
rejected as an invalid transition, in which case the state is unchanged
anyway). -/
theorem C2_at_most_once (e : SimulationEngine) (a : Action)
    (role : Option String) (i : String) (hid : a.id = some i)
    (hne : i ≠ "") :
    ((e.apply_action a role).2.apply_action a role).2 =
      (e.apply_action a role).2 ∧
    ((e.apply_action a role).2.apply_action a role).1 =
      (e.apply_action a role).1 := by
  by_cases hd : e.alreadyApplied a = true
  · rw [apply_action_dup hd]
    rw [apply_action_dup hd]
    exact ⟨rfl, rfl⟩
  · rw [Bool.not_eq_true] at hd
    by_cases hv : (e.candidate a role).is_valid = true
    · rw [apply_action_commit hd hv]
      have h2 : SimulationEngine.alreadyApplied
          { e with
            state := (e.candidate a role).after
            state_history := e.state_history ++ [(e.candidate a role).after]
            transitions := e.transitions ++ [e.candidate a role] } a =
            true := by
        unfold SimulationEngine.alreadyApplied
        rw [hid]
        simp [List.any_append, SimulationEngine.candidate, hid, hne]
      rw [apply_action_dup h2]
      exact ⟨rfl, rfl⟩
    · rw [Bool.not_eq_true] at hv
      rw [apply_action_reject hd hv]
      rw [apply_action_reject hd hv]
      exact ⟨rfl, rfl⟩

/-- Witness for C2 at the S2 scenario: id `"a1"` is non-null and non-empty;
the second call is a no-op returning `true`, and the state after one (hence
after two) applications has `headcount = 25` and
`costs_monthly = 250000`. -/
theorem C2_witness :
    actS2.id = some "a1" ∧ "a1" ≠ "" ∧
    ((engineS2.apply_action actS2 none).2.apply_action actS2 none).2 =
      (engineS2.apply_action actS2 none).2 ∧
    ((engineS2.apply_action actS2 none).2.apply_action actS2 none).1 =
      true ∧
    (engineS2.apply_action actS2 none).2.state.headcount = 25 ∧
    (engineS2.apply_action actS2 none).2.state.costs_monthly = 250000 := by
  have h := C2_at_most_once engineS2 actS2 none "a1" rfl (by decide)
  refine ⟨rfl, by decide, h.1, ?_, by decide, ?_⟩
  · rw [h.2]; decide
  · have hd : engineS2.alreadyApplied actS2 = false := by decide
    have hv : (engineS2.candidate actS2 none).is_valid = true := by decide
    rw [apply_action_commit hd hv]
    norm_num [SimulationEngine.candidate, applyActionToState, actS2,
      engineS2, SimulationEngine.mkEngine, initialState, bpS1, tlEmpty,
      CompanyState.clone]

/-! ## C7 — transition validity and atomicity -/

/-- C7: `apply_action` commits a candidate only when the four validity
conditions hold (`after.cash ≥ 0`, `after.headcount ≥ 0`,
`after.version = before.version + 1`, `after.timestamp ≥ before.timestamp`),
and whenever the candidate it builds fails any of them it returns `false`
leaving the engine — state, state history and transition log — exactly as
before the call.  (On the idempotent-return path no candidate is built and
nothing is committed.) -/
theorem C7_transition_atomicity (e : SimulationEngine) (a : Action)
    (role : Option String) :
    ((e.apply_action a role).2.transitions ≠ e.transitions →
      (e.candidate a role).is_valid = true ∧
      (e.apply_action a role).2.transitions =
        e.transitions ++ [e.candidate a role] ∧
      (e.apply_action a role).2.state = (e.candidate a role).after ∧
      0 ≤ (e.candidate a role).after.cash ∧
      0 ≤ (e.candidate a role).after.headcount ∧
      (e.candidate a role).after.version = e.state.version + 1 ∧
      e.state.timestamp ≤ (e.candidate a role).after.timestamp) ∧
    (e.alreadyApplied a = false → (e.candidate a role).is_valid = false →
      (e.apply_action a role).1 = false ∧ (e.apply_action a role).2 = e) := by
  by_cases hd : e.alreadyApplied a = true
  · rw [apply_action_dup hd]
    constructor
    · intro h
      exact absurd rfl h
    · intro h
      rw [hd] at h
      exact absurd h (by simp)
  · rw [Bool.not_eq_true] at hd
    by_cases hv : (e.candidate a role).is_valid = true
    · rw [apply_action_commit hd hv]
      constructor
      · intro _
        obtain ⟨c1, c2, c3, c4⟩ := (is_valid_iff (e.candidate a role)).mp hv
        exact ⟨hv, rfl, rfl, c1, c2, c3, c4⟩
      · intro _ hv1
        rw [hv1] at hv
        exact absurd hv (by simp)
    · rw [Bool.not_eq_true] at hv
      rw [apply_action_reject hd hv]
      constructor
      · intro h
        exact absurd rfl h
      · intro _ _
        exact ⟨rfl, rfl⟩

/-- Witness for C7 at a concrete rejection: from a blueprint whose initial
cash is −1, the candidate for a no-op hiring action fails `after.cash ≥ 0`,
so `apply_action` returns `false` and the engine is untouched. -/
theorem C7_witness :
    engineNeg.alreadyApplied actNoop = false ∧
    (engineNeg.candidate actNoop none).is_valid = false ∧
    (engineNeg.apply_action actNoop none).1 = false ∧
    (engineNeg.apply_action actNoop none).2 = engineNeg := by
  have h := (C7_transition_atomicity engineNeg actNoop none).2
    (by decide) (by decide)
  exact ⟨by decide, by decide, h.1, h.2⟩

/-! ## Ledger chain lemmas -/

/-- `signEntry` is injective in the signed fields (same key, same
predecessor): the symbolic counterpart of canonical-JSON signing. -/
theorem signEntry_inj (key : Nat) (f g : EntryFields) (p : Option Signature)
    (h : signEntry key f p = signEntry key g p) : f = g := by
  cases p with
  | none => simpa [signEntry] using h
  | some q => simpa [signEntry] using h

/-- Unfolding `verifyFrom` on a cons cell. -/
theorem verifyFrom_cons (key : Nat) (p : Option Signature) (e : LedgerEntry)
    (rest : List LedgerEntry) :
    verifyFrom key p (e :: rest) =
      if e.prev_signature ≠ p then false
      else if e.signature ≠ signEntry key e.fields e.prev_signature then false
      else verifyFrom key (some e.signature) rest := rfl

/-- `verifyFrom` on a cons cell, as the three chain conditions. -/
theorem verifyFrom_cons_iff (key : Nat) (p : Option Signature)
    (e : LedgerEntry) (rest : List LedgerEntry) :
    verifyFrom key p (e :: rest) = true ↔
      e.prev_signature = p ∧
      e.signature = signEntry key e.fields e.prev_signature ∧
      verifyFrom key (some e.signature) rest = true := by
  rw [verifyFrom_cons]
  by_cases h1 : e.prev_signature = p
  · by_cases h2 : e.signature = signEntry key e.fields e.prev_signature
    · simp [h1, h2]
    · simp [h1, h2]
  · simp [h1]

/-- `chainEnd` after appending one entry is that entry's signature. -/
theorem chainEnd_snoc (x : LedgerEntry) :
    ∀ (es : List LedgerEntry) (p : Option Signature),
      chainEnd p (es ++ [x]) = some x.signature
  | [], _ => rfl
  | e :: rest, _ => chainEnd_snoc x rest (some e.signature)

/-- A verifying chain stays verifying when an entry correctly linked to its
end is appended. -/
theorem verifyFrom_snoc (key : Nat) (x : LedgerEntry) :
    ∀ (es : List LedgerEntry) (p : Option Signature),
      verifyFrom key p es = true →
      x.prev_signature = chainEnd p es →
      x.signature = signEntry key x.fields x.prev_signature →
      verifyFrom key p (es ++ [x]) = true
  | [], p, _, h1, h2 => by
      rw [List.nil_append, verifyFrom_cons_iff]
      exact ⟨h1, h2, rfl⟩
  | e :: rest, p, h, h1, h2 => by
      rw [List.cons_append, verifyFrom_cons_iff]
      rw [verifyFrom_cons_iff] at h
      exact ⟨h.1, h.2.1,
        verifyFrom_snoc key x rest (some e.signature) h.2.2 h1 h2⟩

/-- A verifying chain is linked: each `prev_signature` is the preceding
entry's signature. -/
theorem chainLinked_of_verifyFrom (key : Nat) :
    ∀ (es : List LedgerEntry) (p : Option Signature),
      verifyFrom key p es = true → chainLinked p es
  | [], _, _ => trivial
  | e :: rest, p, h => by
      rw [verifyFrom_cons_iff] at h
      exact ⟨h.1,
        chainLinked_of_verifyFrom key rest (some e.signature) h.2.2⟩

/-- Mutating the `data` of any entry of a verifying chain makes verification
fail: the stored signature no longer matches the entry's canonical form. -/
theorem verifyFrom_mutate_false (key : Nat) (d : LedgerData) :
    ∀ (es : List LedgerEntry) (p : Option Signature) (i : Nat)
      (hi : i < es.length),
      verifyFrom key p es = true →
      d ≠ (es.get ⟨i, hi⟩).fields.data →
      verifyFrom key p (mutateData es i d) = false
  | [], _, i, hi, _, _ => absurd hi (by simp)
  | e :: rest, p, 0, _, h, hne => by
      rw [verifyFrom_cons_iff] at h
      show verifyFrom key p
        ({ e with fields := { e.fields with data := d } } :: rest) = false
      have hprev :
          ({ e with fields := { e.fields with data := d } } :
            LedgerEntry).prev_signature = p := h.1
      have hsig :
          ({ e with fields := { e.fields with data := d } } :
              LedgerEntry).signature ≠
            signEntry key
              ({ e with fields := { e.fields with data := d } } :
                LedgerEntry).fields
              ({ e with fields := { e.fields with data := d } } :
                LedgerEntry).prev_signature := by
        intro hcontra
        have hc1 : signEntry key e.fields e.prev_signature =
            signEntry key { e.fields with data := d } e.prev_signature := by
          rw [← h.2.1]
          exact hcontra
        have hf := signEntry_inj key e.fields
          { e.fields with data := d } e.prev_signature hc1
        have : e.fields.data = d := congrArg EntryFields.data hf
        exact hne this.symm
      rw [verifyFrom_cons]
      rw [if_neg (fun hc => hc hprev), if_pos hsig]
  | e :: rest, p, i + 1, hi, h, hne => by
      rw [verifyFrom_cons_iff] at h
      show verifyFrom key p (e :: mutateData rest i d) = false
      rw [verifyFrom_cons]
      rw [if_neg (fun hc => hc h.1), if_neg (fun hc => hc h.2.1)]
      exact verifyFrom_mutate_false key d rest (some e.signature) i
        (Nat.lt_of_succ_lt_succ (by simpa using hi)) h.2.2 hne

/-- The ledger invariant holds at construction. -/
theorem mkLedger_inv (k : Nat) : LedgerInv (AuditLedger.mkLedger k) :=
  ⟨rfl, rfl, rfl⟩

/-- `append` preserves the ledger invariant. -/
theorem append_inv (l : AuditLedger) (run_id : String) (sim_time : Time)
    (entry_type : String) (data : LedgerData) (agent_role : Option String)
    (wall_clock : Time) (h : LedgerInv l) :
    LedgerInv
      (l.append run_id sim_time entry_type data agent_role wall_clock).2 := by
  unfold AuditLedger.append
  cases hdup : l.findDup data with
  | some existing => exact h
  | none =>
      dsimp only
      constructor
      · rw [List.map_append, h.seqs, List.length_append]
        simp [List.range_succ]
      · apply verifyFrom_snoc
        · exact h.verified
        · exact h.last
        · rfl
      · rw [chainEnd_snoc]

/-- `runAppends` preserves the ledger invariant. -/
theorem runAppends_inv :
    ∀ (ins : List AppendInput) (l : AuditLedger),
      LedgerInv l → LedgerInv (runAppends l ins)
  | [], _, h => h
  | x :: rest, l, h =>
      runAppends_inv rest _
        (append_inv l x.run_id x.sim_time x.entry_type x.data x.agent_role
          x.wall_clock h)

/-! ## C5 — ledger chain invariant -/

/-- C5 counterexample: after appends interleaving run ids A, B, A, the
run-A entries carry the *global* sequence numbers `[0, 2]` — not the dense
`0..N-1` the claim asserts per run id. -/
theorem C5_counterexample :
    (ledgerInterleaved.entries.filter
        (fun entry => entry.fields.run_id == "A")).map
        (fun entry => entry.fields.sequence) = [0, 2] ∧
    (ledgerInterleaved.entries.filter
        (fun entry => entry.fields.run_id == "A")).length = 2 ∧
    ([0, 2] : List Nat) ≠ List.range 2 := by
  exact ⟨by decide, by decide, by decide⟩

/-- C5 as amended: after any sequence of `append` calls over any run ids,
the `sequence` fields over the *whole ledger* form `0..N-1` without gaps,
each entry's `prev_signature` is the immediately preceding entry's
signature regardless of run id (null for the first), `verify_chain` (which
takes no run id and checks the single global chain) returns `true`, and
mutating any stored entry's `data` makes `verify_chain` return `false`.
When all appends share one run id this coincides with the per-run claim. -/
theorem C5_global_chain (key : Nat) (ins : List AppendInput) :
    (runAppends (AuditLedger.mkLedger key) ins).entries.map
        (fun entry => entry.fields.sequence) =
      List.range (runAppends (AuditLedger.mkLedger key) ins).entries.length ∧
    chainLinked none (runAppends (AuditLedger.mkLedger key) ins).entries ∧
    (runAppends (AuditLedger.mkLedger key) ins).verify_chain = true ∧
    ∀ (i : Nat)
      (hi : i < (runAppends (AuditLedger.mkLedger key) ins).entries.length)
      (d : LedgerData),
      d ≠ ((runAppends (AuditLedger.mkLedger key) ins).entries.get
        ⟨i, hi⟩).fields.data →
      AuditLedger.verify_chain
        { runAppends (AuditLedger.mkLedger key) ins with
          entries :=
            mutateData (runAppends (AuditLedger.mkLedger key) ins).entries
              i d } = false := by
  have h := runAppends_inv ins (AuditLedger.mkLedger key) (mkLedger_inv key)
  refine ⟨h.seqs, chainLinked_of_verifyFrom _ _ _ h.verified, h.verified, ?_⟩
  intro i hi d hne
  exact verifyFrom_mutate_false _ d _ none i hi h.verified hne

/-- Witness for C5 at a concrete ledger: two appends on one run verify and
are densely sequenced; tampering with entry 0's data breaks
verification. -/
theorem C5_witness :
    ledgerTwo.entries.map (fun entry => entry.fields.sequence) =
      List.range ledgerTwo.entries.length ∧
    chainLinked none ledgerTwo.entries ∧
    ledgerTwo.verify_chain = true ∧
    (0 : Nat) < ledgerTwo.entries.length ∧
    tamperData ≠ (ledgerTwo.entries.get ⟨0, by decide⟩).fields.data ∧
    AuditLedger.verify_chain
      { ledgerTwo with
        entries := mutateData ledgerTwo.entries 0 tamperData } = false := by
  have h := C5_global_chain 0 insTwo
  have hlen : (0 : Nat) < ledgerTwo.entries.length := by decide
  have hne : tamperData ≠
      (ledgerTwo.entries.get ⟨0, by decide⟩).fields.data := by decide
  exact ⟨h.1, h.2.1, h.2.2.1, hlen, hne, h.2.2.2 0 hlen tamperData hne⟩

/-! ## Tick congruence lemmas

`tick` reads and writes the engine only through `tickView` as far as the
evolving `state` is concerned; the lemmas below make that precise and carry
it through `tickN`. -/

/-- `_apply_event` respects the tick view. -/
theorem apply_event_view {e1 e2 : SimulationEngine}
    (h : tickView e1 = tickView e2) (ev : TimelineEvent) :
    tickView (e1.apply_event ev) = tickView (e2.apply_event ev) := by
  simp only [tickView, Prod.mk.injEq] at h
  obtain ⟨hs, ht, he, hd, ha⟩ := h
  unfold SimulationEngine.apply_event
  by_cases hc : (ev.demand_multiplier.isSome || ev.cost_multiplier.isSome ||
      ev.churn_delta.isSome) = true
  · rw [if_pos hc, if_pos hc]
    simp [tickView, hs, ht, he, hd, ha]
  · rw [Bool.not_eq_true] at hc
    rw [if_neg (by rw [hc]; simp), if_neg (by rw [hc]; simp)]
    simp [tickView, hs, ht, he, hd, ha]

/-- The activation loop body respects the tick view. -/
theorem activationStep_view {e1 e2 : SimulationEngine}
    (h : tickView e1 = tickView e2) (ev : TimelineEvent) :
    tickView (e1.activationStep ev) = tickView (e2.activationStep ev) := by
  have h1 := h
  simp only [tickView, Prod.mk.injEq] at h1
  obtain ⟨hs, ht, he, hd, ha⟩ := h1
  unfold SimulationEngine.activationStep
  by_cases hc :
      (((ev.timestamp - e1.current_time).natAbs : Int) < e1.tick_days)
  · rw [if_pos hc, if_pos (by rw [← ht, ← hd]; exact hc)]
    apply apply_event_view
    simp [tickView, hs, ht, he, hd, ha]
  · rw [if_neg hc, if_neg (by rw [← ht, ← hd]; exact hc)]
    exact h

/-- The activation fold respects the tick view. -/
theorem foldl_activation_view :
    ∀ (l : List TimelineEvent) {e1 e2 : SimulationEngine},
      tickView e1 = tickView e2 →
      tickView (l.foldl SimulationEngine.activationStep e1) =
        tickView (l.foldl SimulationEngine.activationStep e2)
  | [], _, _, h => h
  | ev :: rest, _, _, h =>
      foldl_activation_view rest (activationStep_view h ev)

/-- The cash-flow step respects the tick view. -/
theorem update_state_for_tick_view {e1 e2 : SimulationEngine}
    (h : tickView e1 = tickView e2) :
    tickView e1.update_state_for_tick = tickView e2.update_state_for_tick := by
  simp only [tickView, Prod.mk.injEq] at h
  obtain ⟨hs, ht, he, hd, ha⟩ := h
  unfold SimulationEngine.update_state_for_tick
  simp [tickView, hs, ht, he, hd, ha]

/-- `tick` respects the tick view: engines agreeing on the view return the
same flag and agree on the view afterwards. -/
theorem tick_view {e1 e2 : SimulationEngine}
    (h : tickView e1 = tickView e2) :
    (e1.tick).1 = (e2.tick).1 ∧ tickView (e1.tick).2 = tickView (e2.tick).2 := by
  have h1 := h
  simp only [tickView, Prod.mk.injEq] at h1
  obtain ⟨hs, ht, he, hd, ha⟩ := h1
  unfold SimulationEngine.tick
  by_cases hc : e1.current_time ≥ e1.end_time
  · rw [if_pos hc, if_pos (by rw [← ht, ← he]; exact hc)]
    exact ⟨rfl, h⟩
  · rw [if_neg hc, if_neg (by rw [← ht, ← he]; exact hc)]
    refine ⟨rfl, ?_⟩
    dsimp only
    apply update_state_for_tick_view
    rw [ha]
    apply foldl_activation_view
    simp [tickView, hs, ht, he, hd, ha]

/-- `tickN` respects the tick view on the resulting state. -/
theorem tickN_view {e1 e2 : SimulationEngine}
    (h : tickView e1 = tickView e2) :
    ∀ n : Nat, tickView (e1.tickN n) = tickView (e2.tickN n) := by
  intro n
  induction n generalizing e1 e2 with
  | zero => exact h
  | succ n ih => exact ih (tick_view h).2

/-- Engines agreeing on the tick view produce identical `state.hash()`
sequences. -/
theorem hashSeq_view {e1 e2 : SimulationEngine}
    (h : tickView e1 = tickView e2) :
    ∀ n : Nat, e1.hashSeq n = e2.hashSeq n := by
  intro n
  induction n generalizing e1 e2 with
  | zero => rfl
  | succ n ih =>
      have ht := tick_view h
      have hstate : (e1.tick).2.state = (e2.tick).2.state := by
        have h2 := ht.2
        simp only [tickView, Prod.mk.injEq] at h2
        exact h2.1
      simp only [SimulationEngine.hashSeq, CompanyState.hash]
      rw [hstate, ih ht.2]

/-! ## C1 — deterministic replay -/

/-- C1 counterexample: two independently constructed ledgers — whose
constructions draw distinct key-generation entropy, as
`rsa.generate_private_key` does on every call — produce different
`entries[].signature` sequences for the very same single append. -/
theorem C1_sig_counterexample :
    AuditLedger.sigSeq (runAppends (AuditLedger.mkLedger 0) [apIn]) ≠
      AuditLedger.sigSeq (runAppends (AuditLedger.mkLedger 1) [apIn]) := by
  decide

/-- C1 as amended: for every `(blueprint, timeline, seed)` and tick count N,
two independently constructed engines produce byte-identical `state.hash()`
sequences — even though each construction draws a fresh random time-lock
key; the `ledger.entries[].signature` sequences coincide only when the two
ledgers share the signing key and observe the same `utcnow` wall-clock
values (each real construction draws a fresh random RSA key, so independent
constructions differ — see the counterexample). -/
theorem C1_deterministic_replay (bp : Blueprint) (tl : Timeline) (seed : Int)
    (tick_days : Int) (run_id : String) (k1 k2 : Nat) (N : Nat)
    (key1 key2 : Nat) (ins1 ins2 : List AppendInput)
    (hkey : key1 = key2) (hins : ins1 = ins2) :
    (SimulationEngine.mkEngine bp tl seed tick_days run_id k1).hashSeq N =
      (SimulationEngine.mkEngine bp tl seed tick_days run_id k2).hashSeq N ∧
    (runAppends (AuditLedger.mkLedger key1) ins1).sigSeq =
      (runAppends (AuditLedger.mkLedger key2) ins2).sigSeq := by
  subst hkey
  subst hins
  refine ⟨?_, rfl⟩
  apply hashSeq_view
  simp [tickView, SimulationEngine.mkEngine]

/-- Witness for C1 at the S1 scenario (time-lock entropy 0 vs 5, three
ticks, equal ledger inputs). -/
theorem C1_witness :
    (0 : Nat) = 0 ∧ ([apIn] : List AppendInput) = [apIn] ∧
    (SimulationEngine.mkEngine bpS1 tlEmpty 42 7 "test-run" 0).hashSeq 3 =
      (SimulationEngine.mkEngine bpS1 tlEmpty 42 7 "test-run" 5).hashSeq 3 ∧
    (runAppends (AuditLedger.mkLedger 0) [apIn]).sigSeq =
      (runAppends (AuditLedger.mkLedger 0) [apIn]).sigSeq := by
  have h := C1_deterministic_replay bpS1 tlEmpty 42 7 "test-run" 0 5 3 0 0
    [apIn] [apIn] rfl rfl
  exact ⟨rfl, rfl, h.1, h.2⟩

/-! ## Checkpoint preservation lemmas -/

/-- `_apply_event` leaves checkpoints, end time and tick length alone. -/
theorem apply_event_static (e : SimulationEngine) (ev : TimelineEvent) :
    staticView (e.apply_event ev) = staticView e := by
  unfold SimulationEngine.apply_event
  split
  · rfl
  · rfl

/-- The activation loop body leaves the static fields alone. -/
theorem activationStep_static (e : SimulationEngine) (ev : TimelineEvent) :
    staticView (e.activationStep ev) = staticView e := by
  unfold SimulationEngine.activationStep
  split
  · rw [apply_event_static]
    rfl
  · rfl

/-- The activation fold leaves the static fields alone. -/
theorem foldl_activation_static :
    ∀ (l : List TimelineEvent) (e : SimulationEngine),
      staticView (l.foldl SimulationEngine.activationStep e) = staticView e
  | [], _ => rfl
  | ev :: rest, e => by
      rw [List.foldl_cons, foldl_activation_static rest,
        activationStep_static]

/-- The cash-flow step leaves the static fields alone. -/
theorem update_state_for_tick_static (e : SimulationEngine) :
    staticView e.update_state_for_tick = staticView e := rfl

/-- `tick` leaves checkpoints, end time and tick length alone. -/
theorem tick_static (e : SimulationEngine) :
    staticView (e.tick).2 = staticView e := by
  unfold SimulationEngine.tick
  split
  · rfl
  · dsimp only
    rw [update_state_for_tick_static, foldl_activation_static]
    rfl

/-- `tickN` leaves checkpoints, end time and tick length alone. -/
theorem tickN_static (e : SimulationEngine) :
    ∀ n : Nat, staticView (e.tickN n) = staticView e := by
  intro n
  induction n generalizing e with
  | zero => rfl
  | succ n ih => rw [SimulationEngine.tickN, ih, tick_static]

/-- A tick keeps an empty `active_events` list empty: the expiry filter of
an empty list is empty, and the activation loop only iterates the
(captured, empty) list itself. -/
theorem tick_active_empty {e : SimulationEngine}
    (h : e.active_events = []) : (e.tick).2.active_events = [] := by
  unfold SimulationEngine.tick
  split
  · exact h
  · dsimp only
    rw [h]
    rfl

/-- `tickN` keeps an empty `active_events` list empty. -/
theorem tickN_active_empty {e : SimulationEngine}
    (h : e.active_events = []) :
    ∀ n : Nat, (e.tickN n).active_events = [] := by
  intro n
  induction n generalizing e with
  | zero => exact h
  | succ n ih => exact ih (tick_active_empty h)

/-! ## Association-list lookup after update -/

/-- `find?` after the in-place replacement branch of `alistSet`. -/
theorem find?_map_set {α : Type} (k : String) (v : α) :
    ∀ m : List (String × α), m.any (fun p => p.1 == k) = true →
      (m.map (fun p => if p.1 == k then (k, v) else p)).find?
        (fun p => p.1 == k) = some (k, v)
  | [], h => by simp at h
  | (k0, v0) :: rest, h => by
      by_cases h0 : (k0 == k) = true
      · rw [List.map_cons]
        simp only [if_pos h0]
        rw [List.find?_cons_of_pos _ (by simp)]
      · rw [List.map_cons]
        simp only [if_neg h0]
        have h1 : rest.any (fun p => p.1 == k) = true := by
          simpa [List.any_cons, h0] using h
        rw [List.find?_cons_of_neg _ (by simp [h0]),
          find?_map_set k v rest h1]

/-- `find?` after the append branch of `alistSet`. -/
theorem find?_append_single {α : Type} (k : String) (v : α) :
    ∀ m : List (String × α), m.any (fun p => p.1 == k) = false →
      (m ++ [(k, v)]).find? (fun p => p.1 == k) = some (k, v)
  | [], _ => by simp [List.find?]
  | (k0, v0) :: rest, h => by
      have h' : (k0 == k) = false ∧
          rest.any (fun p => p.1 == k) = false := by
        simpa [List.any_cons] using h
      rw [List.cons_append, List.find?_cons_of_neg _ (by simp [h'.1]),
        find?_append_single k v rest h'.2]

/-- Looking up a key right after storing it returns the stored value
(`self.checkpoints[name] = self.state` followed by
`self.checkpoints[name]`). -/
theorem alistGet_alistSet {α : Type} (m : List (String × α)) (k : String)
    (v : α) : alistGet (alistSet m k v) k = some v := by
  unfold alistSet alistGet
  by_cases hany : m.any (fun p => p.1 == k) = true
  · rw [if_pos hany, find?_map_set k v m hany]
    rfl
  · rw [Bool.not_eq_true] at hany
    rw [if_neg (by rw [hany]; simp), find?_append_single k v m hany]
    rfl

/-! ## Reachability of the C6 hypotheses -/

/-- Any applied action stamps the produced state with the given clock
value. -/
theorem applyActionToState_timestamp (s : CompanyState) (a : Action)
    (now : Time) : (applyActionToState s a now).timestamp = now := by
  unfold applyActionToState CompanyState.clone
  cases a.params <;> dsimp only
  case allocate_budget allocation => split <;> rfl

/-- The reachability invariant holds at construction. -/
theorem mkEngine_reach_inv (bp : Blueprint) (tl : Timeline) (seed : Int)
    (tick_days : Int) (run_id : String) (timelock_key : Nat) :
    ReachInv
      (SimulationEngine.mkEngine bp tl seed tick_days run_id timelock_key) :=
  ⟨rfl, rfl⟩

/-- `tick` preserves the reachability invariant. -/
theorem tick_reach_inv {e : SimulationEngine} (h : ReachInv e) :
    ReachInv (e.tick).2 := by
  obtain ⟨h1, h2⟩ := h
  refine ⟨?_, tick_active_empty h2⟩
  unfold SimulationEngine.tick
  split
  · exact h1
  · dsimp only
    rw [h2]
    rfl

/-- `apply_action` preserves the reachability invariant. -/
theorem apply_action_reach_inv {e : SimulationEngine} {a : Action}
    {role : Option String} (h : ReachInv e) :
    ReachInv (e.apply_action a role).2 := by
  by_cases hd : e.alreadyApplied a = true
  · rw [apply_action_dup hd]
    exact h
  · rw [Bool.not_eq_true] at hd
    by_cases hv : (e.candidate a role).is_valid = true
    · rw [apply_action_commit hd hv]
      exact ⟨applyActionToState_timestamp e.state a e.current_time, h.2⟩
    · rw [Bool.not_eq_true] at hv
      rw [apply_action_reject hd hv]
      exact h

/-- `create_checkpoint` and `restore_checkpoint` preserve the reachability
invariant. -/
theorem checkpoint_reach_inv {e : SimulationEngine} (name : String)
    (h : ReachInv e) :
    ReachInv (e.create_checkpoint name) ∧
    ReachInv (e.restore_checkpoint name).2 := by
  refine ⟨⟨h.1, h.2⟩, ?_⟩
  unfold SimulationEngine.restore_checkpoint
  cases hget : alistGet e.checkpoints name with
  | none => exact h
  | some cp => exact ⟨rfl, h.2⟩

/-! ## C6 — checkpoint round-trip -/

/-- C6: from any engine whose state stamp agrees with the clock and whose
active-event list is empty (both hold on every reachable engine),
`create_checkpoint name` followed by N ticks, `restore_checkpoint name` and
N further ticks reproduces the same final `state.hash()`; the restore
succeeds, restores the checkpointed `state` and `current_time`, and
truncates the state history strictly newer than the checkpoint
timestamp. -/
theorem C6_checkpoint_roundtrip (e : SimulationEngine) (name : String)
    (N : Nat) (hts : e.state.timestamp = e.current_time)
    (hae : e.active_events = []) :
    (((e.create_checkpoint name).tickN N).restore_checkpoint name).1 =
      true ∧
    (((e.create_checkpoint name).tickN N).restore_checkpoint name).2.state =
      e.state ∧
    (((e.create_checkpoint name).tickN N).restore_checkpoint
        name).2.current_time = e.current_time ∧
    (((e.create_checkpoint name).tickN N).restore_checkpoint
        name).2.state_history =
      ((e.create_checkpoint name).tickN N).state_history.filter
        (fun s => decide (s.timestamp ≤ e.state.timestamp)) ∧
    ((((e.create_checkpoint name).tickN N).restore_checkpoint
        name).2.tickN N).state.hash =
      ((e.create_checkpoint name).tickN N).state.hash := by
  have hstatic := tickN_static (e.create_checkpoint name) N
  simp only [staticView, Prod.mk.injEq] at hstatic
  obtain ⟨hcp, hend, hdays⟩ := hstatic
  have hget : alistGet ((e.create_checkpoint name).tickN N).checkpoints
      name = some e.state := by
    rw [hcp]
    exact alistGet_alistSet e.checkpoints name e.state
  have hactive : ((e.create_checkpoint name).tickN N).active_events = [] :=
    tickN_active_empty (e := e.create_checkpoint name) hae N
  have hres : ((e.create_checkpoint name).tickN N).restore_checkpoint name =
      (true,
       { (e.create_checkpoint name).tickN N with
         state := e.state
         current_time := e.state.timestamp
         state_history :=
           ((e.create_checkpoint name).tickN N).state_history.filter
             (fun s => decide (s.timestamp ≤ e.state.timestamp))
         transitions :=
           ((e.create_checkpoint name).tickN N).transitions.filter
             (fun t =>
               decide (t.before.timestamp ≤ e.state.timestamp)) }) := by
    unfold SimulationEngine.restore_checkpoint
    rw [hget]
  rw [hres]
  refine ⟨rfl, rfl, hts, rfl, ?_⟩
  have hview : tickView
      ({ (e.create_checkpoint name).tickN N with
         state := e.state
         current_time := e.state.timestamp
         state_history :=
           ((e.create_checkpoint name).tickN N).state_history.filter
             (fun s => decide (s.timestamp ≤ e.state.timestamp))
         transitions :=
           ((e.create_checkpoint name).tickN N).transitions.filter
             (fun t =>
               decide (t.before.timestamp ≤ e.state.timestamp)) } :
        SimulationEngine) = tickView (e.create_checkpoint name) := by
    simp only [tickView, Prod.mk.injEq]
    exact ⟨rfl, hts, hend, hdays, by rw [hactive]; exact hae.symm⟩
  have h5 := tickN_view hview N
  simp only [tickView, Prod.mk.injEq] at h5
  exact h5.1

/-- Witness for C6 at the S1 engine, checkpoint name `"c"`, two ticks. -/
theorem C6_witness :
    engineS2.state.timestamp = engineS2.current_time ∧
    engineS2.active_events = [] ∧
    (((engineS2.create_checkpoint "c").tickN 2).restore_checkpoint
        "c").1 = true ∧
    (((engineS2.create_checkpoint "c").tickN 2).restore_checkpoint
        "c").2.state = engineS2.state ∧
    (((engineS2.create_checkpoint "c").tickN 2).restore_checkpoint
        "c").2.current_time = engineS2.current_time ∧
    ((((engineS2.create_checkpoint "c").tickN 2).restore_checkpoint
        "c").2.tickN 2).state.hash =
      ((engineS2.create_checkpoint "c").tickN 2).state.hash := by
  have h := C6_checkpoint_roundtrip engineS2 "c" 2 rfl rfl
  exact ⟨rfl, rfl, h.1, h.2.1, h.2.2.1, h.2.2.2.2⟩

end ChronicleOps
